import Mathlib

/-!
Shallow embedding of the measurement core of the `linux-reality-check`
repository: the timing primitive, the kernel-counter reader and metric
record (`metrics_init` / `metrics_finish`), the NUMA cpulist parser
(`numa_node_to_cpus`), the hardware-counter group (`perf_counters_*`),
and the workload kernels `cpu_spin`, `cpu_spin_long` and
`memory_random_chase`.

Machine integers are modelled as `Nat` with explicit reduction modulo
`2 ^ 64` exactly where the C code relies on `uint64_t` wraparound.
Reads of kernel pseudo-files are modelled by passing the file content
(or `none` for an unreadable file) as an explicit argument.  C strings
are modelled as `List Char`.
-/

namespace LRC

/-- `2 ^ 64`, the modulus of `uint64_t` arithmetic. -/
def U64MOD : Nat := 2 ^ 64

/-- `uint64_t` subtraction `a - b` with wraparound, for `a b < 2^64`. -/
def u64sub (a b : Nat) : Nat := (U64MOD + a - b) % U64MOD

/-! ## Timing primitive (`get_timestamp_ns`, src/unnamed/part_001) -/

/-- A `struct timespec` as filled in (or left over on the stack) after a
call to `clock_gettime`. -/
structure Timespec where
  sec : Nat
  nsec : Nat
  deriving Repr, DecidableEq

/-- Result of one `clock_gettime(CLOCK_MONOTONIC_RAW, &ts)` call: `ok` is
whether the call succeeded (return value 0); `ts` is the content of the
timespec afterwards — on failure it is whatever indeterminate value the
stack held, which we model by still carrying a `Timespec`. -/
structure ClockRead where
  ok : Bool
  ts : Timespec
  deriving Repr, DecidableEq

/-- `get_timestamp_ns`: the C code calls `clock_gettime` and returns
`(uint64_t)ts.tv_sec * 1000000000ULL + ts.tv_nsec` without inspecting the
return value of the clock read. -/
def get_timestamp_ns (r : ClockRead) : Nat :=
  (r.ts.sec * 1000000000 + r.ts.nsec) % U64MOD

/-! ## Kernel-counter reader (`read_ctxt_switches`, `read_page_faults`) -/

/-- Whitespace as recognised by `sscanf`/`strtoul` (the characters that
occur in `/proc` lines). -/
def isSpaceC (c : Char) : Bool :=
  c = ' ' || c = '\t' || c = '\n'

/-- Digit accumulation of `strtoul`/`sscanf %lu`: consume leading decimal
digits, returning the accumulated value and the rest. -/
def readDigits : List Char → Nat → Nat × List Char
  | c :: cs, acc =>
      if c.isDigit then readDigits cs (acc * 10 + (c.toNat - 48)) else (acc, c :: cs)
  | [], acc => (acc, [])

/-- `sscanf("%lu")` on a suffix: skip whitespace, then require at least
one digit; `none` when no conversion happens.  The converted value is an
`unsigned long`, reduced mod `2 ^ 64`. -/
def parseULong (s : List Char) : Option Nat :=
  match s.dropWhile isSpaceC with
  | c :: cs => if c.isDigit then some ((readDigits (c :: cs) 0).1 % U64MOD) else none
  | [] => none

/-- `strtoul(p, &p, 10)`: skip whitespace then digits; on no conversion
return 0 with the pointer unmoved (glibc sets `endptr = nptr`). -/
def strtoulM (s : List Char) : Nat × List Char :=
  match s.dropWhile isSpaceC with
  | c :: cs =>
      if c.isDigit then
        let r := readDigits (c :: cs) 0
        (r.1 % U64MOD, r.2)
      else (0, s)
  | [] => (0, s)

/-- `strncmp(line, lbl, lbl.length) == 0`: the label is an initial
segment of the line. -/
def labelMatches : List Char → List Char → Bool
  | [], _ => true
  | _ :: _, [] => false
  | l :: ls, c :: cs => l = c && labelMatches ls cs

/-- The literal label `"voluntary_ctxt_switches:"` (24 characters). -/
def volLabel : List Char := ("voluntary_ctxt_switches:").toList

/-- The literal label `"nonvoluntary_ctxt_switches:"` (27 characters). -/
def nonvolLabel : List Char := ("nonvoluntary_ctxt_switches:").toList

/-- One line of the `/proc/self/status` scan loop in
`read_ctxt_switches`: on a `voluntary_ctxt_switches:` line the first
out-parameter is overwritten by the `%lu` conversion (left unchanged
when the conversion fails); likewise for the `nonvoluntary` label.
The state is the pair of values currently held by the out-parameters. -/
def ctxtLine (st : Nat × Nat) (line : List Char) : Nat × Nat :=
  if labelMatches volLabel line then
    match parseULong (line.drop 24) with
    | some v => (v, st.2)
    | none => st
  else if labelMatches nonvolLabel line then
    match parseULong (line.drop 27) with
    | some v => (st.1, v)
    | none => st
  else st

/-- `read_ctxt_switches(&voluntary, &nonvoluntary)`: `file` is the line
list of `/proc/self/status`, `none` when `fopen` fails.  `v0`/`nv0` are
the values the out-parameters hold before the call (0 after the memset
in `metrics_init`; indeterminate stack content in `metrics_finish`).
On open failure both are set to 0; otherwise every line is scanned. -/
def read_ctxt_switches (file : Option (List (List Char))) (v0 nv0 : Nat) : Nat × Nat :=
  match file with
  | none => (0, 0)
  | some lines => lines.foldl ctxtLine (v0, nv0)

/-- One `while (*p && *p != ' ') p++; if (*p) p++;` step of the stat
parser: drop the current field and the following space. -/
def dropFieldSp (s : List Char) : List Char :=
  match s.dropWhile (fun c => c ≠ ' ') with
  | [] => []
  | _ :: rest => rest

/-- `read_page_faults(&minor, &major)`: `file` is the first line of
`/proc/self/stat` as read by `fgets`, `none` when `fopen` or `fgets`
fails.  Skips fields 1–9, reads `minflt` (field 10) with `strtoul`,
skips field 11, reads `majflt` (field 12). -/
def read_page_faults (file : Option (List Char)) : Nat × Nat :=
  match file with
  | none => (0, 0)
  | some buf =>
      let p := (dropFieldSp (dropFieldSp (dropFieldSp (dropFieldSp (dropFieldSp
                 (dropFieldSp (dropFieldSp (dropFieldSp (dropFieldSp buf)))))))))
      match p with
      | [] => (0, 0)
      | _ :: _ =>
          let r1 := strtoulM p
          let p1 := match r1.2 with
                    | [] => []
                    | _ :: rest => rest
          let p2 := dropFieldSp p1
          let r2 := strtoulM p2
          (r1.1, r2.1)

/-! ## Metric record (`workload_metrics_t`, `metrics_init`, `metrics_finish`) -/

/-- `workload_metrics_t`. -/
structure WorkloadMetrics where
  timestamp_ns : Nat
  runtime_ns : Nat
  voluntary_ctxt_switches : Nat
  nonvoluntary_ctxt_switches : Nat
  minor_page_faults : Nat
  major_page_faults : Nat
  start_cpu : Int
  end_cpu : Int
  deriving Repr, DecidableEq

/-- The kernel-visible environment of one measured iteration: the clock
reads, pseudo-file contents and `sched_getcpu` results at the begin and
end boundaries, plus the indeterminate initial content of the stack
variables `vol_ctxt`/`nonvol_ctxt` in `metrics_finish`. -/
structure ProcEnv where
  ts1 : ClockRead
  status1 : Option (List (List Char))
  stat1 : Option (List Char)
  cpu1 : Int
  ts2 : ClockRead
  status2 : Option (List (List Char))
  stat2 : Option (List Char)
  cpu2 : Int
  garbageVol : Nat
  garbageNonvol : Nat

/-- `metrics_init(&m)`: memset to zero, then store the begin timestamp,
the begin counter reads and `sched_getcpu()`. -/
def metrics_init (env : ProcEnv) : WorkloadMetrics :=
  let cs := read_ctxt_switches env.status1 0 0
  let pf := read_page_faults env.stat1
  { timestamp_ns := get_timestamp_ns env.ts1
    runtime_ns := 0
    voluntary_ctxt_switches := cs.1
    nonvoluntary_ctxt_switches := cs.2
    minor_page_faults := pf.1
    major_page_faults := pf.2
    start_cpu := env.cpu1
    end_cpu := 0 }

/-- `metrics_finish(&m)`: read the end boundary and overwrite the record
with `uint64_t` deltas; finally `m->timestamp_ns = end_ts`. -/
def metrics_finish (env : ProcEnv) (m : WorkloadMetrics) : WorkloadMetrics :=
  let end_ts := get_timestamp_ns env.ts2
  let cs := read_ctxt_switches env.status2 env.garbageVol env.garbageNonvol
  let pf := read_page_faults env.stat2
  { timestamp_ns := end_ts
    runtime_ns := u64sub end_ts m.timestamp_ns
    voluntary_ctxt_switches := u64sub cs.1 m.voluntary_ctxt_switches
    nonvoluntary_ctxt_switches := u64sub cs.2 m.nonvoluntary_ctxt_switches
    minor_page_faults := u64sub pf.1 m.minor_page_faults
    major_page_faults := u64sub pf.2 m.major_page_faults
    start_cpu := m.start_cpu
    end_cpu := env.cpu2 }

/-- One full measured iteration as driven by every scenario:
`metrics_init`, workload, `metrics_finish`; the emitted record is the
record as it stands after `metrics_finish` (`metrics_print_csv` prints
its fields unchanged). -/
def iterationRecord (env : ProcEnv) : WorkloadMetrics :=
  metrics_finish env (metrics_init env)

/-! ## CPU spin kernels (`cpu_spin`, `cpu_spin_long`, src/core/cpu_spin.c) -/

/-- One body of the spin loop at index `i` on accumulator `r`
(`result += i; result ^= (i << 1); result *= 3;`), in `uint64_t`. -/
def spinStep (r i : Nat) : Nat :=
  let r1 := (r + i) % U64MOD
  let r2 := Nat.xor r1 ((i * 2) % U64MOD)
  (r2 * 3) % U64MOD

/-- `cpu_spin(iterations)`. -/
def cpu_spin (iterations : Nat) : Nat :=
  (List.range iterations).foldl spinStep 0

/-- `cpu_spin_long(iterations, phases)`: the same loop body nested under
a phase loop, the accumulator carried across phases. -/
def cpu_spin_long (iterations phases : Nat) : Nat :=
  (List.range phases).foldl (fun r _ => (List.range iterations).foldl spinStep r) 0

/-! ## NUMA cpulist parser (`numa_node_to_cpus`, src/unnamed/part_001) -/

/-- `sscanf("%d")` on a suffix: skip whitespace, then require at least
one digit; `none` when no conversion happens.  The cpulist values are
small non-negative integers, so the sign handling of `%d` is not
modelled. -/
def parseIntC (s : List Char) : Option (Nat × List Char) :=
  match s.dropWhile isSpaceC with
  | c :: cs => if c.isDigit then some (readDigits (c :: cs) 0) else none
  | [] => none

/-- The mask built by `for (i = start; i <= end && i < 64; i++)
mask |= 1ULL << i;`: the bits `i` with `start ≤ i ≤ end` and `i < 64`. -/
def rangeMask (s e : Nat) : Nat :=
  (List.range 64).foldl (fun m i => if s ≤ i && i ≤ e then m ||| (1 <<< i)  else m) 0

/-- The mask of the singleton branch: `if (start < 64) mask |= 1ULL << start;`. -/
def singletonMask (s : Nat) : Nat :=
  if s < 64 then 1 <<< s else 0

/-- `numa_node_to_cpus(node)`: `file` is the first line of the node's
`cpulist` file as read by `fgets` (`none` when `fopen` or `fgets`
fails).  The code tries `sscanf(buffer, "%d-%d", &start, &end)`; on two
conversions it returns the mask of that first range; on one conversion
(`sscanf(buffer, "%d", &start)`) the singleton mask; otherwise 0.
Everything after the first comma-separated entry is ignored. -/
def numa_node_to_cpus (file : Option (List Char)) : Nat :=
  match file with
  | none => 0
  | some buffer =>
      match parseIntC buffer with
      | none => 0
      | some (s, rest) =>
          match rest with
          | '-' :: r2 =>
              match parseIntC r2 with
              | some (e, _) => rangeMask s e
              | none => singletonMask s
          | _ => singletonMask s

/-- The mask of one cpulist entry, a range `"A-B"` or a singleton
`"A"`. -/
def entryMask (s : List Char) : Nat :=
  match parseIntC s with
  | none => 0
  | some (a, rest) =>
      match rest with
      | '-' :: r2 =>
          match parseIntC r2 with
          | some (b, _) => rangeMask a b
          | none => singletonMask a
      | _ => singletonMask a

/-- Modelled from the spec (refinement side of the cpulist claim):
`node_cpus(node) -> bitset` must "parse the node's cpulist file
(comma-separated ranges \"A-B\" or singletons \"A\") and return a CPU
mask" covering every listed entry: split on commas and union the masks
of all entries. -/
def cpulistFullMask (s : List Char) : Nat :=
  ((s.splitOn ',').map entryMask).foldl (fun m e => m ||| e) 0

/-! ## Hardware-counter group (`perf_counters_*`, src/core/perf_counters.c) -/

/-- The six events of the fixed panel. -/
inductive PerfEvent
  | instructions | cycles | l1_dcache_misses | llc_misses | branches | branch_misses
  deriving Repr, DecidableEq

/-- `perf_counters_t`: one file descriptor and one value slot per event
(the `*_start` slots of the C struct are never written after the memset
and are omitted). -/
structure PerfCounters where
  fd_instructions : Int
  fd_cycles : Int
  fd_l1_dcache_misses : Int
  fd_llc_misses : Int
  fd_branches : Int
  fd_branch_misses : Int
  instructions : Nat
  cycles : Nat
  l1_dcache_misses : Nat
  llc_misses : Nat
  branches : Nat
  branch_misses : Nat
  deriving Repr, DecidableEq

/-- The file descriptor of an event. -/
def fdOf (pc : PerfCounters) : PerfEvent → Int
  | .instructions => pc.fd_instructions
  | .cycles => pc.fd_cycles
  | .l1_dcache_misses => pc.fd_l1_dcache_misses
  | .llc_misses => pc.fd_llc_misses
  | .branches => pc.fd_branches
  | .branch_misses => pc.fd_branch_misses

/-- The stored value of an event. -/
def valOf (pc : PerfCounters) : PerfEvent → Nat
  | .instructions => pc.instructions
  | .cycles => pc.cycles
  | .l1_dcache_misses => pc.l1_dcache_misses
  | .llc_misses => pc.llc_misses
  | .branches => pc.branches
  | .branch_misses => pc.branch_misses

/-- The outcomes of the six `open_counter` calls in
`perf_counters_init` (a negative value is a failed
`perf_event_open`). -/
structure PerfOpenRes where
  instructions : Int
  cycles : Int
  l1_dcache_misses : Int
  llc_misses : Int
  branches : Int
  branch_misses : Int

/-- `perf_counters_init(&pc)`: memset to zero, store the six open
results, return `-1` when either mandatory descriptor
(`fd_instructions`, `fd_cycles`) is negative, else `0`. -/
def perf_counters_init (res : PerfOpenRes) : PerfCounters × Int :=
  let pc : PerfCounters :=
    { fd_instructions := res.instructions
      fd_cycles := res.cycles
      fd_l1_dcache_misses := res.l1_dcache_misses
      fd_llc_misses := res.llc_misses
      fd_branches := res.branches
      fd_branch_misses := res.branch_misses
      instructions := 0, cycles := 0, l1_dcache_misses := 0
      llc_misses := 0, branches := 0, branch_misses := 0 }
  if res.instructions < 0 || res.cycles < 0 then (pc, -1) else (pc, 0)

/-- The kernel-facing operations issued by the counter group: the three
ioctls and `read(fd, buf, bytes)` with its requested byte count. -/
inductive PerfCmd
  | reset (fd : Int)
  | enable (fd : Int)
  | disable (fd : Int)
  | readc (fd : Int) (bytes : Nat)
  deriving Repr, DecidableEq

/-- `perf_counters_start(&pc)`: six sequential
`if (fd >= 0) { ioctl RESET; ioctl ENABLE; }` blocks, as the trace of
issued commands. -/
def perf_counters_start (pc : PerfCounters) : List PerfCmd :=
  (if 0 ≤ pc.fd_instructions then
    [.reset pc.fd_instructions, .enable pc.fd_instructions] else []) ++
  (if 0 ≤ pc.fd_cycles then
    [.reset pc.fd_cycles, .enable pc.fd_cycles] else []) ++
  (if 0 ≤ pc.fd_l1_dcache_misses then
    [.reset pc.fd_l1_dcache_misses, .enable pc.fd_l1_dcache_misses] else []) ++
  (if 0 ≤ pc.fd_llc_misses then
    [.reset pc.fd_llc_misses, .enable pc.fd_llc_misses] else []) ++
  (if 0 ≤ pc.fd_branches then
    [.reset pc.fd_branches, .enable pc.fd_branches] else []) ++
  (if 0 ≤ pc.fd_branch_misses then
    [.reset pc.fd_branch_misses, .enable pc.fd_branch_misses] else [])

/-- Result of one `read(fd, &slot, sizeof(uint64_t))`: `ret` is the
returned byte count, `val` the 8-byte value the kernel would deliver on
a full read. -/
structure ReadRes where
  ret : Int
  val : Nat

/-- The per-event read results available to one `perf_counters_stop`
call. -/
def ReadEnv := PerfEvent → ReadRes

/-- The value a slot holds after one
`ret = read(fd, &slot, 8); if (ret != 8) slot = 0;` sequence. -/
def readStore (r : ReadRes) : Nat :=
  if r.ret = 8 then r.val else 0

/-- `perf_counters_stop(&pc)`: six sequential
`if (fd >= 0) { ioctl DISABLE; read 8 bytes; zero on short read }`
blocks; returns the updated record and the trace of issued commands. -/
def perf_counters_stop (pc : PerfCounters) (env : ReadEnv) : PerfCounters × List PerfCmd :=
  let pc1 := if 0 ≤ pc.fd_instructions then
    { pc with instructions := readStore (env .instructions) } else pc
  let pc2 := if 0 ≤ pc.fd_cycles then
    { pc1 with cycles := readStore (env .cycles) } else pc1
  let pc3 := if 0 ≤ pc.fd_l1_dcache_misses then
    { pc2 with l1_dcache_misses := readStore (env .l1_dcache_misses) } else pc2
  let pc4 := if 0 ≤ pc.fd_llc_misses then
    { pc3 with llc_misses := readStore (env .llc_misses) } else pc3
  let pc5 := if 0 ≤ pc.fd_branches then
    { pc4 with branches := readStore (env .branches) } else pc4
  let pc6 := if 0 ≤ pc.fd_branch_misses then
    { pc5 with branch_misses := readStore (env .branch_misses) } else pc5
  (pc6,
    (if 0 ≤ pc.fd_instructions then
      [.disable pc.fd_instructions, .readc pc.fd_instructions 8] else []) ++
    (if 0 ≤ pc.fd_cycles then
      [.disable pc.fd_cycles, .readc pc.fd_cycles 8] else []) ++
    (if 0 ≤ pc.fd_l1_dcache_misses then
      [.disable pc.fd_l1_dcache_misses, .readc pc.fd_l1_dcache_misses 8] else []) ++
    (if 0 ≤ pc.fd_llc_misses then
      [.disable pc.fd_llc_misses, .readc pc.fd_llc_misses 8] else []) ++
    (if 0 ≤ pc.fd_branches then
      [.disable pc.fd_branches, .readc pc.fd_branches 8] else []) ++
    (if 0 ≤ pc.fd_branch_misses then
      [.disable pc.fd_branch_misses, .readc pc.fd_branch_misses 8] else []))

/-- The `ipc` column computed in `perf_counters_print_csv`
(`pc->cycles > 0 ? (double)pc->instructions / pc->cycles : 0.0`); the
double division is modelled as exact rational division. -/
def perf_ipc (pc : PerfCounters) : ℚ :=
  if 0 < pc.cycles then (pc.instructions : ℚ) / (pc.cycles : ℚ) else 0

/-- The `branch_miss_rate` column computed in
`perf_counters_print_csv`. -/
def perf_branch_miss_rate (pc : PerfCounters) : ℚ :=
  if 0 < pc.branches then (pc.branch_misses : ℚ) / (pc.branches : ℚ) else 0

/-- The six events in the order the C functions process them. -/
def allPerfEvents : List PerfEvent :=
  [.instructions, .cycles, .l1_dcache_misses, .llc_misses, .branches, .branch_misses]

/-- Per-event description of one `perf_counters_start` block: a live
event gets a reset followed by an enable; a dead event gets nothing. -/
def startBlock (pc : PerfCounters) (e : PerfEvent) : List PerfCmd :=
  if 0 ≤ fdOf pc e then [.reset (fdOf pc e), .enable (fdOf pc e)] else []

/-- Per-event description of one `perf_counters_stop` block: a live
event gets a disable followed by a read of exactly 8 bytes; a dead event
gets nothing. -/
def stopBlock (pc : PerfCounters) (e : PerfEvent) : List PerfCmd :=
  if 0 ≤ fdOf pc e then [.disable (fdOf pc e), .readc (fdOf pc e) 8] else []

/-! ## Random memory chase (src/core/memory_random.c)

The `indices` array of `shuffle_indices` is modelled as a function from
slot positions to contents; writing a swap of the contents of slots `i`
and `j` precomposes the array with the transposition of `i` and `j`.
`rnd m` is the `rand()` draw made at loop index `m`. -/

/-- The transposition of `i` and `j` on `Nat`, as used to swap two array
slots. -/
def swapFn (i j k : Nat) : Nat :=
  if k = i then j else if k = j then i else k

/-- The Fisher–Yates loop `for (i = count - 1; i > 0; i--) { j = rand()
% (i + 1); swap(indices[i], indices[j]); }`, descending from loop index
`m`; `a` is the current content of the `indices` array. -/
def fisherYates (rnd : Nat → Nat) : Nat → (Nat → Nat) → (Nat → Nat)
  | 0, a => a
  | m + 1, a => fisherYates rnd m (fun k => a (swapFn (m + 1) (rnd (m + 1) % (m + 2)) k))

/-- `shuffle_indices(indices, count)`: initialise `indices[i] = i`, then
run the Fisher–Yates loop from `count - 1` down to `1`. -/
def shuffle_indices (count : Nat) (rnd : Nat → Nat) : Nat → Nat :=
  fisherYates rnd (count - 1) (fun k => k)

/-- The chain-construction loop of `memory_random_chase`:
`for (i = 0; i < count - 1; i++) buffer[indices[i]] = indices[i + 1];
buffer[indices[count - 1]] = indices[0];` applied to the initial buffer
content `buf`, with `p` the shuffled `indices` array. -/
def chaseChain (count : Nat) (p : Nat → Nat) (buf : Nat → Nat) : Nat → Nat :=
  Function.update
    ((List.range (count - 1)).foldl (fun b i => Function.update b (p i) (p (i + 1))) buf)
    (p (count - 1)) (p 0)

/-- The buffer as prepared by `memory_random_chase` on a buffer of
`count` slots whose initial contents are `buf`. -/
def memory_random_chase_buffer (count : Nat) (rnd : Nat → Nat) (buf : Nat → Nat) : Nat → Nat :=
  chaseChain count (shuffle_indices count rnd) buf

/-- The chase loop `index = 0; for (i = 0; i < iterations; i++) index =
buffer[index];`: the slot index after `k` hops. -/
def chaseIndex (buffer : Nat → Nat) : Nat → Nat
  | 0 => 0
  | k + 1 => buffer (chaseIndex buffer k)

/-! ### Event trace of the measured region (for the frame claim)

`memory_random_chase` is called by `scenarios/numa_locality.c` between
`metrics_init` and `metrics_finish`; the heap and buffer operations it
performs are recorded as an abstract event trace (values elided — the
claim concerns only which operations occur inside the measured
region). -/

/-- Events of one measured iteration of the `numa_locality` scenario. -/
inductive ChaseEv
  | beginSnap
  | endSnap
  | mallocEv (bytes : Nat)
  | chainWrite (i : Nat)
  | freeEv
  | readEv (i : Nat)
  deriving Repr, DecidableEq

/-- The operations performed by `memory_random_chase(buffer, size,
iterations)` in order: `count = size / 8`; `malloc(count *
sizeof(uint64_t))` (on failure the kernel returns 0 immediately); the
shuffle (no buffer or heap events); the `count` chain writes; `free`;
the `iterations` dependent reads. -/
def memory_random_chase_trace (size iterations : Nat) (mallocOk : Bool) : List ChaseEv :=
  let count := size / 8
  if mallocOk then
    [.mallocEv (count * 8)] ++ ((List.range (count - 1)).map .chainWrite)
      ++ [.chainWrite (count - 1)] ++ [.freeEv]
      ++ ((List.range iterations).map .readEv)
  else
    [.mallocEv (count * 8)]

/-- One measured iteration of `scenarios/numa_locality.c`
(`metrics_init(&metrics); memory_random_chase(buffer, BUFFER_SIZE,
ITERATIONS); metrics_finish(&metrics);`). -/
def numa_locality_iteration_trace (size iterations : Nat) (mallocOk : Bool) : List ChaseEv :=
  [.beginSnap] ++ (memory_random_chase_trace size iterations mallocOk ++ [.endSnap])

/-! ## Theorems -/

/-- C10: for every iteration count `n`, the phased CPU-spin variant with
exactly one phase computes the same result as the plain CPU-spin kernel:
`cpu_spin_long(n, 1) = cpu_spin(n)`. -/
theorem cpu_spin_long_one_phase (n : Nat) : cpu_spin_long n 1 = cpu_spin n := rfl

/-- C4: the timing primitive does not inspect the result of the clock
read.  The returned timestamp is the same whether the clock read
succeeded or failed, and on the concrete failing read (`clock_gettime`
returns −1, the stack timespec holding 7 s / 9 ns) it silently returns
`7000000009` instead of aborting. -/
theorem get_timestamp_ns_ignores_failure :
    (∀ ts : Timespec,
      get_timestamp_ns { ok := false, ts := ts } = get_timestamp_ns { ok := true, ts := ts })
    ∧ get_timestamp_ns { ok := false, ts := { sec := 7, nsec := 9 } } = 7000000009 := by
  refine ⟨fun ts => rfl, ?_⟩
  decide

/-- C2 counterexample: with the begin clock read returning 100 ns and the
end clock read returning 250 ns, `metrics_init` stores 100 in
`timestamp_ns`, but the emitted record carries 250 — `metrics_finish`
overwrites the slot with the end capture, so `timestamp_ns` does not
equal the begin capture. -/
theorem metrics_timestamp_overwritten :
    (metrics_init
        { ts1 := { ok := true, ts := { sec := 0, nsec := 100 } }
          status1 := none, stat1 := none, cpu1 := 0
          ts2 := { ok := true, ts := { sec := 0, nsec := 250 } }
          status2 := none, stat2 := none, cpu2 := 0
          garbageVol := 0, garbageNonvol := 0 }).timestamp_ns = 100
    ∧ (iterationRecord
        { ts1 := { ok := true, ts := { sec := 0, nsec := 100 } }
          status1 := none, stat1 := none, cpu1 := 0
          ts2 := { ok := true, ts := { sec := 0, nsec := 250 } }
          status2 := none, stat2 := none, cpu2 := 0
          garbageVol := 0, garbageNonvol := 0 }).timestamp_ns ≠ 100 := by
  decide

/-- C2 amended: for every emitted record, `timestamp_ns` equals the end
capture (`metrics_finish` replaces the value stored by `metrics_init`),
and `runtime_ns` equals the end capture minus the start capture in
`uint64_t` arithmetic. -/
theorem metrics_timestamp_is_end_capture (env : ProcEnv) :
    (iterationRecord env).timestamp_ns = get_timestamp_ns env.ts2
    ∧ (iterationRecord env).runtime_ns
        = u64sub (get_timestamp_ns env.ts2) (get_timestamp_ns env.ts1) := by
  constructor <;> rfl

/-- C1: when the begin read of `/proc/self/status` succeeds (5 voluntary
and 3 nonvoluntary context switches) but the end read fails (`fopen`
returns NULL, modelled by `status2 = none`), the failed read yields 0
and the emitted field becomes the wrapped-around `uint64_t` delta
`0 - 5 = 2^64 - 5`, not 0. -/
theorem ctxt_switch_end_failure_wraps :
    (iterationRecord
        { ts1 := { ok := true, ts := { sec := 0, nsec := 0 } }
          status1 := some [("voluntary_ctxt_switches:\t5\n").toList,
                           ("nonvoluntary_ctxt_switches:\t3\n").toList]
          stat1 := none, cpu1 := 0
          ts2 := { ok := true, ts := { sec := 0, nsec := 0 } }
          status2 := none, stat2 := none, cpu2 := 0
          garbageVol := 0, garbageNonvol := 0 }).voluntary_ctxt_switches = 2 ^ 64 - 5
    ∧ 2 ^ 64 - 5 ≠ 0 := by
  constructor
  · decide
  · decide

/-- The first operation of `memory_random_chase` is always the heap
allocation of the `indices` array of `count * sizeof(uint64_t)`
bytes. -/
theorem chase_trace_head (size iters : Nat) (ok : Bool) :
    ∃ t, memory_random_chase_trace size iters ok
      = ChaseEv.mallocEv ((size / 8) * 8) :: t := by
  cases ok
  · exact ⟨[], rfl⟩
  · exact ⟨_, rfl⟩

/-- C3: in the measured region of one `numa_locality` iteration
(`metrics_init`; `memory_random_chase(buffer, 64 MiB, 10^6)`;
`metrics_finish`), the trace between the begin snapshot and the end
snapshot contains a heap allocation: the kernel mallocs its `indices`
array (67108864 bytes) inside the measured region. -/
theorem chase_allocates_in_measured_region :
    ∃ mid, numa_locality_iteration_trace 67108864 1000000 true
        = ChaseEv.beginSnap :: (mid ++ [ChaseEv.endSnap])
      ∧ ChaseEv.mallocEv 67108864 ∈ mid := by
  refine ⟨memory_random_chase_trace 67108864 1000000 true, rfl, ?_⟩
  obtain ⟨t, ht⟩ := chase_trace_head 67108864 1000000 true
  rw [ht]
  norm_num

/-- C8: at emission, the `ipc` column equals instructions divided by
cycles and the `branch_miss_rate` column equals branch misses divided by
branches, each defined as 0 when its denominator is 0 (the doubles of
`perf_counters_print_csv` modelled as exact rationals). -/
theorem perf_derived_columns (pc : PerfCounters) :
    (pc.cycles = 0 → perf_ipc pc = 0)
    ∧ (pc.cycles ≠ 0 → perf_ipc pc = (pc.instructions : ℚ) / (pc.cycles : ℚ))
    ∧ (pc.branches = 0 → perf_branch_miss_rate pc = 0)
    ∧ (pc.branches ≠ 0 →
        perf_branch_miss_rate pc = (pc.branch_misses : ℚ) / (pc.branches : ℚ)) := by
  refine ⟨fun h => ?_, fun h => ?_, fun h => ?_, fun h => ?_⟩
  · simp [perf_ipc, h]
  · simp [perf_ipc, Nat.pos_of_ne_zero h]
  · simp [perf_branch_miss_rate, h]
  · simp [perf_branch_miss_rate, Nat.pos_of_ne_zero h]

/-- Witness for the derived-column theorem at a concrete panel with
`cycles = 0` and `branches = 2`, `branch_misses = 1`. -/
theorem perf_derived_columns_witness :
    perf_ipc
      { fd_instructions := 3, fd_cycles := 4, fd_l1_dcache_misses := 5
        fd_llc_misses := 6, fd_branches := 7, fd_branch_misses := 8
        instructions := 10, cycles := 0, l1_dcache_misses := 0
        llc_misses := 0, branches := 2, branch_misses := 1 } = 0
    ∧ perf_branch_miss_rate
      { fd_instructions := 3, fd_cycles := 4, fd_l1_dcache_misses := 5
        fd_llc_misses := 6, fd_branches := 7, fd_branch_misses := 8
        instructions := 10, cycles := 0, l1_dcache_misses := 0
        llc_misses := 0, branches := 2, branch_misses := 1 } = (1 : ℚ) / (2 : ℚ) := by
  refine ⟨(perf_derived_columns _).1 rfl, ?_⟩
  have h := (perf_derived_columns
    { fd_instructions := 3, fd_cycles := 4, fd_l1_dcache_misses := 5
      fd_llc_misses := 6, fd_branches := 7, fd_branch_misses := 8
      instructions := 10, cycles := 0, l1_dcache_misses := 0
      llc_misses := 0, branches := 2, branch_misses := 1 }).2.2.2 (by decide)
  simpa using h

/-- Fieldwise description of the record returned by
`perf_counters_stop`: each live event's slot is overwritten by its read
result (zero on a short read), dead events keep their old value, file
descriptors are untouched. -/
theorem perf_stop_fst (pc : PerfCounters) (env : ReadEnv) :
    (perf_counters_stop pc env).1 =
      { pc with
        instructions :=
          if 0 ≤ pc.fd_instructions then readStore (env .instructions) else pc.instructions
        cycles := if 0 ≤ pc.fd_cycles then readStore (env .cycles) else pc.cycles
        l1_dcache_misses :=
          if 0 ≤ pc.fd_l1_dcache_misses then readStore (env .l1_dcache_misses)
          else pc.l1_dcache_misses
        llc_misses :=
          if 0 ≤ pc.fd_llc_misses then readStore (env .llc_misses) else pc.llc_misses
        branches := if 0 ≤ pc.fd_branches then readStore (env .branches) else pc.branches
        branch_misses :=
          if 0 ≤ pc.fd_branch_misses then readStore (env .branch_misses)
          else pc.branch_misses } := by
  simp only [perf_counters_stop]
  split_ifs <;> rfl

/-- The record part of `perf_counters_init`: the six descriptors are
stored and every value slot is zero, whether or not the mandatory events
opened. -/
theorem perf_init_fst (res : PerfOpenRes) :
    (perf_counters_init res).1 =
      { fd_instructions := res.instructions
        fd_cycles := res.cycles
        fd_l1_dcache_misses := res.l1_dcache_misses
        fd_llc_misses := res.llc_misses
        fd_branches := res.branches
        fd_branch_misses := res.branch_misses
        instructions := 0, cycles := 0, l1_dcache_misses := 0
        llc_misses := 0, branches := 0, branch_misses := 0 } := by
  simp only [perf_counters_init]
  split <;> rfl

/-- `perf_counters_start` issues no command exactly when all six
descriptors are dead. -/
theorem perf_start_empty_iff (pc : PerfCounters) :
    perf_counters_start pc = []
      ↔ (pc.fd_instructions < 0 ∧ pc.fd_cycles < 0 ∧ pc.fd_l1_dcache_misses < 0
          ∧ pc.fd_llc_misses < 0 ∧ pc.fd_branches < 0 ∧ pc.fd_branch_misses < 0) := by
  by_cases h1 : 0 ≤ pc.fd_instructions <;>
  by_cases h2 : 0 ≤ pc.fd_cycles <;>
  by_cases h3 : 0 ≤ pc.fd_l1_dcache_misses <;>
  by_cases h4 : 0 ≤ pc.fd_llc_misses <;>
  by_cases h5 : 0 ≤ pc.fd_branches <;>
  by_cases h6 : 0 ≤ pc.fd_branch_misses <;>
  simp [perf_counters_start, h1, h2, h3, h4, h5, h6, not_le] <;> omega

/-- C7: for every live event, `perf_counters_start` issues a reset
immediately followed by an enable; `perf_counters_stop` issues a disable
immediately followed by a read of exactly 8 bytes, and stores the read
value, storing 0 when the read returns other than 8 bytes — for that
call only: a later stop with a full read is unaffected, and each event's
slot depends only on its own read. -/
theorem perf_event_discipline (pc : PerfCounters) (env : ReadEnv) :
    perf_counters_start pc = (allPerfEvents.map (startBlock pc)).flatten
    ∧ (perf_counters_stop pc env).2 = (allPerfEvents.map (stopBlock pc)).flatten
    ∧ (∀ e, 0 ≤ fdOf pc e →
        valOf (perf_counters_stop pc env).1 e
          = (if (env e).ret = 8 then (env e).val else 0))
    ∧ (∀ e, 0 ≤ fdOf pc e → ∀ env2 : ReadEnv,
        valOf (perf_counters_stop (perf_counters_stop pc env).1 env2).1 e
          = (if (env2 e).ret = 8 then (env2 e).val else 0)) := by
  refine ⟨?_, ?_, ?_, ?_⟩
  · simp [perf_counters_start, allPerfEvents, startBlock, fdOf, List.append_assoc]
  · simp only [perf_counters_stop, allPerfEvents, stopBlock, fdOf, List.map, List.flatten]
    simp [List.append_assoc]
  · intro e he
    rw [perf_stop_fst]
    cases e <;> simp_all [valOf, fdOf, readStore]
  · intro e he env2
    rw [perf_stop_fst, perf_stop_fst]
    cases e <;> simp_all [valOf, fdOf, readStore]

/-- Witness for the start/stop discipline at a fully live panel whose
reads all return 8 bytes delivering 42. -/
theorem perf_event_discipline_witness :
    valOf (perf_counters_stop
      { fd_instructions := 3, fd_cycles := 4, fd_l1_dcache_misses := 5
        fd_llc_misses := 6, fd_branches := 7, fd_branch_misses := 8
        instructions := 0, cycles := 0, l1_dcache_misses := 0
        llc_misses := 0, branches := 0, branch_misses := 0 }
      (fun _ => { ret := 8, val := 42 })).1 PerfEvent.instructions = 42 := by
  have h := (perf_event_discipline
    { fd_instructions := 3, fd_cycles := 4, fd_l1_dcache_misses := 5
      fd_llc_misses := 6, fd_branches := 7, fd_branch_misses := 8
      instructions := 0, cycles := 0, l1_dcache_misses := 0
      llc_misses := 0, branches := 0, branch_misses := 0 }
    (fun _ => { ret := 8, val := 42 })).2.2.1 PerfEvent.instructions (by decide)
  simpa using h

/-- C6 counterexample: with both mandatory opens failed but the
branches event open (descriptor 3), `perf_counters_init` reports −1
(unavailable), yet `perf_counters_start` on the resulting group is not a
no-op — it still resets and enables the live branches counter. -/
theorem perf_mandatory_failure_not_noop :
    (perf_counters_init
        { instructions := -1, cycles := -1, l1_dcache_misses := -1
          llc_misses := -1, branches := 3, branch_misses := -1 }).2 = -1
    ∧ perf_counters_start
        (perf_counters_init
          { instructions := -1, cycles := -1, l1_dcache_misses := -1
            llc_misses := -1, branches := 3, branch_misses := -1 }).1 ≠ [] := by
  decide

/-- C6 amended: if either mandatory event (instructions, cycles) fails
to open, `init` reports unavailable (returns −1); but `start`/`stop`
are per-event — they skip only dead descriptors and still operate on
any live event, so `start` is a no-op exactly when all six opens
failed.  When both mandatory events open, the group is available
(`init` returns 0), and any other failed event merely leaves that
event's field reading 0. -/
theorem perf_group_availability (res : PerfOpenRes) :
    ((res.instructions < 0 ∨ res.cycles < 0) → (perf_counters_init res).2 = -1)
    ∧ ((0 ≤ res.instructions ∧ 0 ≤ res.cycles) → (perf_counters_init res).2 = 0)
    ∧ (perf_counters_start (perf_counters_init res).1 = []
        ↔ ∀ e, fdOf (perf_counters_init res).1 e < 0)
    ∧ (∀ env : ReadEnv, ∀ e, fdOf (perf_counters_init res).1 e < 0 →
        valOf (perf_counters_stop (perf_counters_init res).1 env).1 e = 0) := by
  refine ⟨?_, ?_, ?_, ?_⟩
  · intro h
    rcases h with h | h <;> simp [perf_counters_init, h]
  · intro h
    simp [perf_counters_init, not_lt.mpr h.1, not_lt.mpr h.2]
  · rw [perf_init_fst, perf_start_empty_iff]
    constructor
    · rintro ⟨a, b, c, d, e', f⟩ e
      cases e <;> assumption
    · intro h
      exact ⟨h .instructions, h .cycles, h .l1_dcache_misses,
        h .llc_misses, h .branches, h .branch_misses⟩
  · intro env e he
    rw [perf_init_fst] at he ⊢
    rw [perf_stop_fst]
    cases e <;> simp [fdOf] at he <;> simp [valOf, fdOf, not_le.mpr he]

/-- Witness for the availability theorem: a failed instructions open
makes `init` report −1. -/
theorem perf_group_availability_witness :
    (perf_counters_init
        { instructions := -1, cycles := 5, l1_dcache_misses := -1
          llc_misses := -1, branches := -1, branch_misses := -1 }).2 = -1 :=
  (perf_group_availability
    { instructions := -1, cycles := 5, l1_dcache_misses := -1
      llc_misses := -1, branches := -1, branch_misses := -1 }).1 (Or.inl (by decide))

/-- A decimal digit is not scanner whitespace. -/
theorem digit_not_space (c : Char) (h : c.isDigit = true) : isSpaceC c = false := by
  simp only [isSpaceC, Bool.or_eq_false_iff, decide_eq_false_iff_not]
  refine ⟨⟨?_, ?_⟩, ?_⟩ <;> rintro rfl <;> simp_all

/-- Digit accumulation consumes a digit run and stops at the first
non-digit. -/
theorem readDigits_append (ds : List Char) (c : Char) (cs : List Char) (acc : Nat)
    (hds : ∀ d ∈ ds, d.isDigit = true) (hc : c.isDigit = false) :
    readDigits (ds ++ c :: cs) acc = ((readDigits ds acc).1, c :: cs) := by
  induction ds generalizing acc with
  | nil => simp [readDigits, hc]
  | cons d ds ih =>
      have hd : d.isDigit = true := hds d (List.mem_cons_self d ds)
      simp [readDigits, hd]
      exact ih _ (fun x hx => hds x (List.mem_cons_of_mem d hx))

/-- `sscanf %d` on a nonempty digit run followed by a non-digit converts
exactly the run. -/
theorem parseIntC_digits (d : Char) (ds : List Char) (c : Char) (cs : List Char)
    (hd : ∀ x ∈ d :: ds, x.isDigit = true) (hc : c.isDigit = false) :
    parseIntC ((d :: ds) ++ c :: cs) = some ((readDigits (d :: ds) 0).1, c :: cs) := by
  have hd0 : d.isDigit = true := hd d (List.mem_cons_self d ds)
  simp only [parseIntC, List.cons_append, List.dropWhile_cons, digit_not_space d hd0]
  simp only [Bool.false_eq_true, if_false, hd0, if_true]
  rw [show (d :: (ds ++ c :: cs)) = ((d :: ds) ++ c :: cs) from rfl,
    readDigits_append (d :: ds) c cs 0 hd hc]

/-- C5 counterexample: on the cpulist content `"0-1,4-5"` the parser
returns the mask 3 = {0,1} of the first range only, while the spec-side
full parse of every comma-separated entry gives 51 = {0,1,4,5}; in
particular CPU 4, listed in the second range, is missing from the
returned mask. -/
theorem cpulist_first_entry_only :
    numa_node_to_cpus (some (String.toList "0-1,4-5")) = 3
    ∧ cpulistFullMask (String.toList "0-1,4-5") = 51
    ∧ (3 : Nat) ≠ 51 := by
  decide

/-- C5 amended: for a cpulist whose first comma-separated entry is a
range `"A-B"` (or a singleton `"A"`), `numa_node_to_cpus` returns the
mask of that first entry alone; everything after the first comma is
ignored (the tail `rest` is arbitrary and absent from the result). -/
theorem numa_node_to_cpus_first_entry (d1 d2 rest : List Char)
    (h1 : d1 ≠ []) (hd1 : ∀ c ∈ d1, c.isDigit = true)
    (h2 : d2 ≠ []) (hd2 : ∀ c ∈ d2, c.isDigit = true) :
    numa_node_to_cpus (some (d1 ++ '-' :: (d2 ++ ',' :: rest)))
      = rangeMask (readDigits d1 0).1 (readDigits d2 0).1
    ∧ numa_node_to_cpus (some (d1 ++ ',' :: rest))
      = singletonMask (readDigits d1 0).1 := by
  obtain ⟨d, ds, rfl⟩ := List.exists_cons_of_ne_nil h1
  obtain ⟨e', es, rfl⟩ := List.exists_cons_of_ne_nil h2
  constructor
  · simp only [numa_node_to_cpus]
    rw [parseIntC_digits d ds '-' ((e' :: es) ++ ',' :: rest) hd1 (by decide)]
    simp only []
    rw [parseIntC_digits e' es ',' rest hd2 (by decide)]
  · simp only [numa_node_to_cpus]
    rw [parseIntC_digits d ds ',' rest hd1 (by decide)]
    split <;> simp_all
    rename_i heq
    obtain ⟨hs, hr⟩ := heq
    subst hs
    subst hr
    split <;> simp_all

/-- Witness for the first-entry theorem on the content `"12-15,9"`. -/
theorem numa_node_to_cpus_first_entry_witness :
    numa_node_to_cpus (some (['1', '2'] ++ '-' :: (['1', '5'] ++ ',' :: ['9'])))
      = rangeMask (readDigits ['1', '2'] 0).1 (readDigits ['1', '5'] 0).1 :=
  (numa_node_to_cpus_first_entry ['1', '2'] ['1', '5'] ['9']
    (by decide) (by decide) (by decide) (by decide)).1

/-- Swapping two slots twice restores the array. -/
theorem swapFn_invol (i j k : Nat) : swapFn i j (swapFn i j k) = k := by
  unfold swapFn
  split_ifs <;> omega

/-- A slot swap is injective on indices. -/
theorem swapFn_inj (i j : Nat) : Function.Injective (swapFn i j) := by
  intro a b h
  have h2 := congrArg (swapFn i j) h
  rwa [swapFn_invol, swapFn_invol] at h2

/-- A swap of slots below `n` keeps indices below `n`. -/
theorem swapFn_lt (i j k n : Nat) (hi : i < n) (hj : j < n) (hk : k < n) :
    swapFn i j k < n := by
  unfold swapFn
  split_ifs <;> assumption

/-- The Fisher–Yates loop preserves injectivity of the array. -/
theorem fisherYates_inj (rnd : Nat → Nat) (m : Nat) (a : Nat → Nat)
    (ha : Function.Injective a) : Function.Injective (fisherYates rnd m a) := by
  induction m generalizing a with
  | zero => exact ha
  | succ m ih =>
      refine ih _ ?_
      intro x y h
      exact swapFn_inj _ _ (ha h)

/-- The Fisher–Yates loop from an index below `n` keeps the array's
values on `[0, n)` inside `[0, n)`. -/
theorem fisherYates_lt (rnd : Nat → Nat) (n : Nat) :
    ∀ (m : Nat) (a : Nat → Nat), m < n → (∀ k, k < n → a k < n) →
      ∀ k, k < n → fisherYates rnd m a k < n := by
  intro m
  induction m with
  | zero => intro a _ ha k hk; exact ha k hk
  | succ m ih =>
      intro a hm ha k hk
      refine ih _ (by omega) ?_ k hk
      intro x hx
      refine ha _ (swapFn_lt _ _ _ _ hm ?_ hx)
      have : rnd (m + 1) % (m + 2) < m + 2 := Nat.mod_lt _ (by omega)
      omega

/-- The shuffled `indices` array is injective. -/
theorem shuffle_indices_inj (count : Nat) (rnd : Nat → Nat) :
    Function.Injective (shuffle_indices count rnd) :=
  fisherYates_inj rnd (count - 1) _ (fun _ _ h => h)

/-- The shuffled `indices` array maps `[0, count)` into `[0, count)`. -/
theorem shuffle_indices_lt (count : Nat) (rnd : Nat → Nat) (h : 1 ≤ count) :
    ∀ k, k < count → shuffle_indices count rnd k < count :=
  fisherYates_lt rnd count (count - 1) _ (by omega) (fun _ hk => hk)

/-- An injective self-map of `[0, n)` is surjective onto `[0, n)`. -/
theorem inj_on_range_surj (p : Nat → Nat) (n : Nat) (hinj : Function.Injective p)
    (hlt : ∀ k, k < n → p k < n) (y : Nat) (hy : y < n) :
    ∃ i, i < n ∧ p i = y := by
  have hF : Function.Injective (fun i : Fin n => (⟨p i.1, hlt i.1 i.2⟩ : Fin n)) := by
    intro a b h
    exact Fin.ext (hinj (congrArg Fin.val h))
  obtain ⟨i, hi⟩ := Finite.surjective_of_injective hF ⟨y, hy⟩
  exact ⟨i.1, i.2, congrArg Fin.val hi⟩

/-- A fold of writes to pairwise-distinct addresses `p 0, …, p (m-1)`
leaves value `g i` at address `p i`. -/
theorem foldl_update_range (p g : Nat → Nat) (hinj : Function.Injective p) :
    ∀ (m : Nat) (b : Nat → Nat) (i : Nat), i < m →
      ((List.range m).foldl (fun b k => Function.update b (p k) (g k)) b) (p i) = g i := by
  intro m
  induction m with
  | zero => intro b i hi; exact absurd hi (Nat.not_lt_zero i)
  | succ m ih =>
      intro b i hi
      rw [List.range_succ, List.foldl_append]
      simp only [List.foldl_cons, List.foldl_nil]
      rcases Nat.lt_succ_iff_lt_or_eq.mp hi with h | rfl
      · rw [Function.update_noteq (fun hpe => absurd (hinj hpe) (by omega))]
        exact ih b i h
      · exact Function.update_same _ _ _

/-- The constructed chain holds the cyclic successor: slot `p i`
contains `p ((i + 1) % n)`. -/
theorem chaseChain_at (n : Nat) (p : Nat → Nat) (buf : Nat → Nat)
    (hinj : Function.Injective p) (hn : 1 ≤ n) (i : Nat) (hi : i < n) :
    chaseChain n p buf (p i) = p ((i + 1) % n) := by
  unfold chaseChain
  by_cases hlast : i = n - 1
  · subst hlast
    have hmod : (n - 1 + 1) % n = 0 := by
      have hs : n - 1 + 1 = n := by omega
      rw [hs]
      exact Nat.mod_self n
    rw [hmod, Function.update_same]
  · have hne : p i ≠ p (n - 1) := fun hpe => absurd (hinj hpe) hlast
    rw [Function.update_noteq hne]
    rw [foldl_update_range p (fun k => p (k + 1)) hinj (n - 1) buf i (by omega)]
    rw [Nat.mod_eq_of_lt (by omega)]

/-- After `k` hops the chase sits at `p ((i0 + k) % n)` where `p i0 = 0`
is the slot holding the start index. -/
theorem chaseIndex_formula (n : Nat) (p buf : Nat → Nat)
    (hinj : Function.Injective p) (hn : 1 ≤ n)
    (i0 : Nat) (hi0 : i0 < n) (hz : p i0 = 0) :
    ∀ k, chaseIndex (chaseChain n p buf) k = p ((i0 + k) % n) := by
  intro k
  induction k with
  | zero =>
      simp only [chaseIndex, Nat.add_zero, Nat.mod_eq_of_lt hi0, hz]
  | succ k ih =>
      simp only [chaseIndex, ih]
      have hm : (i0 + k) % n < n := Nat.mod_lt _ (by omega)
      rw [chaseChain_at n p buf hinj hn _ hm]
      congr 1
      conv_rhs => rw [show i0 + (k + 1) = (i0 + k) + 1 from by omega,
        Nat.add_mod (i0 + k) 1]
      rw [Nat.add_mod ((i0 + k) % n) 1, Nat.mod_mod_of_dvd _ dvd_rfl]

/-- C9: for every buffer of `n ≥ 1` slots prepared by
`memory_random_chase` (each slot holding the index of its successor,
built from the Fisher–Yates permutation of `shuffle_indices`), the
first `n` positions of the chase starting at index 0 are pairwise
distinct: exactly `n` distinct slot indices are visited within `n`
hops. -/
theorem chase_visits_all (n : Nat) (rnd : Nat → Nat) (buf : Nat → Nat) (hn : 1 ≤ n) :
    ((Finset.range n).image
        (chaseIndex (memory_random_chase_buffer n rnd buf))).card = n := by
  have hinj := shuffle_indices_inj n rnd
  have hlt := shuffle_indices_lt n rnd hn
  obtain ⟨i0, hi0, hz⟩ :=
    inj_on_range_surj (shuffle_indices n rnd) n hinj hlt 0 (by omega)
  have hf := chaseIndex_formula n (shuffle_indices n rnd) buf hinj hn i0 hi0 hz
  rw [show memory_random_chase_buffer n rnd buf
      = chaseChain n (shuffle_indices n rnd) buf from rfl]
  rw [Finset.card_image_of_injOn, Finset.card_range]
  intro x hx y hy hxy
  simp only [Finset.mem_coe, Finset.mem_range] at hx hy
  rw [hf x, hf y] at hxy
  have hmm := hinj hxy
  have hmod : x % n = y % n :=
    Nat.ModEq.add_left_cancel' i0 hmm
  rwa [Nat.mod_eq_of_lt hx, Nat.mod_eq_of_lt hy] at hmod

/-- Witness for the chase theorem on a 4-slot buffer with a concrete
random stream. -/
theorem chase_visits_all_witness :
    (1 ≤ 4)
    ∧ ((Finset.range 4).image
        (chaseIndex (memory_random_chase_buffer 4 (fun m => m + 1) (fun _ => 0)))).card
      = 4 :=
  ⟨by decide, chase_visits_all 4 (fun m => m + 1) (fun _ => 0) (by decide)⟩

end LRC
